import Mathlib

/-!
Verification of the agent-orchestration loop of the render-atl-2025
repository.

The development shallowly embeds the JavaScript sources:
- `src/unnamed/part_000` (the agent loop `loop()` driving a Gemini chat),
- `src/tools.mjs` (the seven-tool registry `toolDefinitions`),
- `src/unnamed/part_001` (the four-tool variant of the registry).

Pure computations (string trimming, `String.replace` substitution,
empty-output normalization, the per-batch dispatch loop, the bounded
while-loop) are embedded as executable Lean functions.  Effectful
collaborators (the model, the clock, tool handlers) are passed in as
explicit oracles, and external side effects (issue comments, issue close)
are modelled as data.
-/

namespace AgentLoop

/-- JavaScript `String.prototype.trim`, modelled on the character list:
drop whitespace from both ends. -/
def jsTrim (s : String) : String :=
  String.mk (((s.data.dropWhile Char.isWhitespace).reverse.dropWhile
    Char.isWhitespace).reverse)

/-- JavaScript `String.prototype.includes`: `sub` occurs somewhere in `s`. -/
def strIncludes (s sub : String) : Bool :=
  (List.range (s.data.length + 1)).any (fun i => sub.data.isPrefixOf (s.data.drop i))

/-! ## JavaScript `String.prototype.replace` with a string pattern

`update_file` (src/tools.mjs lines 199-211) computes
`contents.replace(old_string, new_string)`.  With a string pattern this
replaces the first occurrence, and the replacement string undergoes the
ECMAScript GetSubstitution step: `$$` means a dollar, `$&` the matched
text, a dollar followed by a backquote the text before the match, and
a dollar followed by a quote the text after the match.  A string
pattern has no capture groups, so `$1` etc. stay literal. -/

/-- Index of the first occurrence of `old` in the list, as in
JavaScript `String.prototype.indexOf` (the empty pattern matches at 0). -/
def firstMatchIdx (old : List Char) : List Char → Option Nat
  | [] => if old.isPrefixOf ([] : List Char) then some 0 else none
  | c :: rest =>
    if old.isPrefixOf (c :: rest) then some 0
    else (firstMatchIdx old rest).map (fun i => i + 1)

/-- ECMAScript GetSubstitution for a string pattern (no capture groups):
expand the dollar escapes of the replacement text. -/
def jsGetSubstitution (matched before after : List Char) : List Char → List Char
  | [] => []
  | [c] => [c]
  | c1 :: c2 :: rest =>
    if c1 = '$' then
      if c2 = '$' then '$' :: jsGetSubstitution matched before after rest
      else if c2 = '&' then matched ++ jsGetSubstitution matched before after rest
      else if c2 = '`' then before ++ jsGetSubstitution matched before after rest
      else if c2 = '\'' then after ++ jsGetSubstitution matched before after rest
      else c1 :: jsGetSubstitution matched before after (c2 :: rest)
    else c1 :: jsGetSubstitution matched before after (c2 :: rest)

/-- JavaScript `s.replace(old, new)` with string arguments: replace the
first occurrence of `old`, expanding dollar escapes in `new`. -/
def jsReplaceFirst (s old new : List Char) : List Char :=
  match firstMatchIdx old s with
  | none => s
  | some i =>
    s.take i ++ jsGetSubstitution old (s.take i) (s.drop (i + old.length)) new
      ++ s.drop (i + old.length)

/-- The new file contents computed by the `update_file` handler
(src/tools.mjs line 203): `contents.replace(old_string, new_string)`. -/
def update_file_newContents (contents old new : List Char) : List Char :=
  jsReplaceFirst contents old new

/-- Modelled from the spec words for comparison: replace the first
occurrence of `old` by `new` taken literally, leaving the rest of the
contents unchanged. -/
def replaceFirstLiteral (s old new : List Char) : List Char :=
  match firstMatchIdx old s with
  | none => s
  | some i => s.take i ++ new ++ s.drop (i + old.length)

lemma jsGetSubstitution_of_no_dollar (matched before after : List Char) :
    ∀ l : List Char, '$' ∉ l → jsGetSubstitution matched before after l = l := by
  intro l
  induction l with
  | nil => intro _; rfl
  | cons c rest ih =>
    intro h
    have hc : c ≠ '$' := fun hc => h (hc ▸ List.mem_cons_self c rest)
    have hrest : '$' ∉ rest := fun hr => h (List.mem_cons_of_mem c hr)
    cases rest with
    | nil => rfl
    | cons c2 rest2 =>
      simp only [jsGetSubstitution, if_neg hc]
      exact congrArg (c :: ·) (ih hrest)

/-- C7 counterexample: with a replacement string containing a dollar
escape, `update_file` does not insert `new_string` literally. -/
theorem update_file_dollar_counterexample :
    update_file_newContents ("foo baz foo".data) ("foo".data) ("$&x".data) ≠
      replaceFirstLiteral ("foo baz foo".data) ("foo".data) ("$&x".data) ∧
    update_file_newContents ("foo baz foo".data) ("foo".data) ("$&x".data) =
      ("foox baz foo".data) := by
  exact ⟨by decide, by decide⟩

/-- C7 (amended): whenever the replacement string contains no dollar
character, `update_file` replaces exactly the first occurrence of
`old_string` with `new_string` and leaves the rest unchanged. -/
theorem update_file_first_occurrence (s old new : List Char) (h : '$' ∉ new) :
    update_file_newContents s old new = replaceFirstLiteral s old new := by
  unfold update_file_newContents jsReplaceFirst replaceFirstLiteral
  cases firstMatchIdx old s with
  | none => rfl
  | some i =>
    exact congrArg (fun m => s.take i ++ m ++ s.drop (i + old.length))
      (jsGetSubstitution_of_no_dollar old (s.take i) (s.drop (i + old.length)) new h)

/-- Witness for `update_file_first_occurrence`: the spec scenario with a
file containing "foo baz foo" and the replacement foo → bar. -/
theorem update_file_first_occurrence_witness :
    ('$' ∉ ("bar".data)) ∧
    update_file_newContents ("foo baz foo".data) ("foo".data) ("bar".data) =
      replaceFirstLiteral ("foo baz foo".data) ("foo".data) ("bar".data) ∧
    replaceFirstLiteral ("foo baz foo".data) ("foo".data) ("bar".data) =
      ("bar baz foo".data) :=
  ⟨by decide,
   update_file_first_occurrence ("foo baz foo".data) ("foo".data) ("bar".data) (by decide),
   by decide⟩

/-! ## The tool registry

`src/tools.mjs` exports `toolDefinitions`, a list of objects with two
fields: `definition` (the schema object carrying the tool's `name`,
`description` and parameter schema) and `handler` (the async function).
Crucially, the objects themselves have no own property `name`; the name
lives at `definition.name`. -/

/-- A tool call requested by the model: a name and an opaque argument
blob (`call.args`). -/
structure ToolCall where
  name : String
  args : String
deriving DecidableEq

/-- The schema object stored under `definition` in a registry entry.
The parameter schema is irrelevant to the claims and elided. -/
structure ToolSchema where
  name : String
  description : String
deriving DecidableEq

/-- Tag identifying which handler a registry entry carries. -/
inductive HandlerTag where
  | think
  | task_completed
  | list_files
  | read_file
  | write_file
  | update_file
  | delete_file
deriving DecidableEq

/-- One entry of `toolDefinitions`: fields `definition` and `handler`
only, exactly as in src/tools.mjs. -/
structure ToolEntry where
  definition : ToolSchema
  handler : HandlerTag
deriving DecidableEq

/-- `toolDefinitions` from src/tools.mjs (descriptions abridged to their
first sentence; only `definition.name` matters to the loop). -/
def toolDefinitions : List ToolEntry :=
  [⟨⟨"think", "Think step by step about the task at hand; this will be shared with the user."⟩, .think⟩,
   ⟨⟨"task_completed", "Mark this task as completed."⟩, .task_completed⟩,
   ⟨⟨"list_files", "List all files in the repository."⟩, .list_files⟩,
   ⟨⟨"read_file", "Read a file from the repository."⟩, .read_file⟩,
   ⟨⟨"write_file", "Create a new file in the repository."⟩, .write_file⟩,
   ⟨⟨"update_file", "Make a change to an existing file in the repository."⟩, .update_file⟩,
   ⟨⟨"delete_file", "Delete a file from the repository."⟩, .delete_file⟩]

/-- The JavaScript property access `tool.name` performed by the loop's
lookup.  A registry entry is an object with own properties `definition`
and `handler` only, so `tool.name` evaluates to `undefined`, modelled
as `none`. -/
def ToolEntry.nameProp (_ : ToolEntry) : Option String := none

/-- The loop's tool lookup (src/unnamed/part_000 lines 179 and 187):
`toolDefinitions.find((tool) => tool.name === call.name)`.  The strict
comparison of `undefined` with the call's name string is always false. -/
def findTool (name : String) : Option ToolEntry :=
  toolDefinitions.find? (fun tool => tool.nameProp == some name)

lemma findTool_eq_none (name : String) : findTool name = none := rfl

/-- An external side effect performed by a tool handler. -/
inductive Effect where
  | comment (body : String)
  | closeTheIssue
deriving DecidableEq

/-- The `task_completed` handler (src/tools.mjs lines 63-68): logs the
completion comment as an issue comment and closes the issue, returning
the empty string. -/
def taskCompletedHandler (comment : String) : List Effect × String :=
  ([.comment ("✅ " ++ comment), .closeTheIssue], "")

/-- Outcome of a write in the filesystem collaborator. -/
inductive FsOutcome where
  | ok
  | error (msg : String)
deriving DecidableEq

/-- The `write_file` handler of the four-tool variant
(src/unnamed/part_001 lines 126-137): logs, attempts the write, and
returns the empty string in the success branch and, after logging the
failure, the empty string in the failure branch as well. -/
def writeFileHandlerV2 (path : String) (w : FsOutcome) : List Effect × String :=
  match w with
  | .ok => ([.comment ("✏️ Writing file: " ++ path)], "")
  | .error m =>
    ([.comment ("✏️ Writing file: " ++ path),
      .comment ("❌ Error writing file: " ++ m)], "")

/-! ## The model client and its retry behaviour

`src/unnamed/part_000` sends messages with `chat.sendMessage(...)` at
three places; the two cited by the spec are the initial task send
(lines 86-97) and the in-loop function-response send (lines 252-271).
Both recognize rate limiting by `error.message.includes("429")`, sleep
60000 ms and retry the same send once; the retry itself is unguarded, so
a failure there propagates out of `loop()` (a fatal, non-zero exit).
They differ on other failures: the initial send rethrows them, while the
in-loop send catches them, logs, and merely breaks out of the while loop
(the run then finishes normally). -/

/-- A model turn: free text plus the requested tool invocations. -/
structure ModelTurn where
  text : String
  functionCalls : List ToolCall
deriving DecidableEq

/-- Outcome of one underlying `chat.sendMessage` attempt. -/
inductive SendAttempt where
  | ok (turn : ModelTurn)
  | fail (msg : String)
deriving DecidableEq

/-- `error.message.includes("429")`: the rate-limit signal. -/
def errIncludes429 (msg : String) : Bool :=
  strIncludes msg "429"

/-- The error text the in-loop send treats as the empty-content
protocol rejection. -/
def emptyContentMarker : String :=
  "contents.parts must not be empty"

/-- Result of the initial task send (lines 86-97): either a model turn
(recording the milliseconds slept before a retry), or an uncaught
failure that propagates out of `loop()` and exits non-zero. -/
inductive InitialSendOutcome where
  | success (turn : ModelTurn) (sleptMs : Nat)
  | thrown (msg : String) (sleptMs : Nat)
deriving DecidableEq

/-- The initial send with its rate-limit retry (lines 86-97), as a
function of the outcomes of the first and (if reached) second attempt. -/
def initialSend (a1 a2 : SendAttempt) : InitialSendOutcome :=
  match a1 with
  | .ok t => .success t 0
  | .fail m =>
    if errIncludes429 m then
      match a2 with
      | .ok t => .success t 60000
      | .fail m2 => .thrown m2 60000
    else .thrown m 0

/-- Result of the in-loop function-response send (lines 252-271). -/
inductive LoopSendOutcome where
  | success (turn : ModelTurn) (sleptMs : Nat)
  | thrown (msg : String) (sleptMs : Nat)
  | breakEmptyContent (msg : String)
  | breakOther (msg : String)
deriving DecidableEq

/-- Whether the outcome propagates an exception out of `loop()` (a
fatal, non-zero process exit); the two break outcomes instead end the
while loop and the run finishes normally (exit 0). -/
def LoopSendOutcome.isFatalThrow : LoopSendOutcome → Bool
  | .thrown _ _ => true
  | _ => false

/-- The in-loop send with its error handling (lines 252-271). -/
def loopSend (a1 a2 : SendAttempt) : LoopSendOutcome :=
  match a1 with
  | .ok t => .success t 0
  | .fail m =>
    if errIncludes429 m then
      match a2 with
      | .ok t => .success t 60000
      | .fail m2 => .thrown m2 60000
    else if strIncludes m emptyContentMarker then .breakEmptyContent m
    else .breakOther m

/-- C5 counterexample: a non-rate-limit failure of the in-loop send is
caught and breaks the loop; it is not treated as fatal for the run. -/
theorem loop_send_error_not_fatal_counterexample :
    loopSend (.fail "ECONNRESET") (.ok ⟨"", []⟩) = .breakOther "ECONNRESET" ∧
    (loopSend (.fail "ECONNRESET") (.ok ⟨"", []⟩)).isFatalThrow = false ∧
    errIncludes429 "ECONNRESET" = false := by
  exact ⟨by decide, by decide, by decide⟩

/-- C5 (amended): a rate-limited send (`m` contains "429") sleeps
60000 ms and is retried exactly once, and any failure `r` of that retry
— rate-limited or not, no restriction on its message — propagates as
fatal at both sites; a non-rate-limit first-attempt failure (`n`, and
the empty-content rejection `e`) is fatal (rethrown) at the initial
send, but at the in-loop send it only breaks the loop, the
empty-content rejection through its own logged branch. -/
theorem rate_limit_retry_once (m n e r : String) (t : ModelTurn) (a2 : SendAttempt)
    (h429 : errIncludes429 m = true)
    (hn429 : errIncludes429 n = false)
    (hnEmpty : strIncludes n emptyContentMarker = false)
    (he429 : errIncludes429 e = false)
    (heEmpty : strIncludes e emptyContentMarker = true) :
    initialSend (.fail m) (.ok t) = .success t 60000 ∧
    initialSend (.fail m) (.fail r) = .thrown r 60000 ∧
    loopSend (.fail m) (.ok t) = .success t 60000 ∧
    loopSend (.fail m) (.fail r) = .thrown r 60000 ∧
    initialSend (.fail n) a2 = .thrown n 0 ∧
    initialSend (.fail e) a2 = .thrown e 0 ∧
    loopSend (.fail n) a2 = .breakOther n ∧
    loopSend (.fail e) a2 = .breakEmptyContent e := by
  simp [initialSend, loopSend, h429, hn429, hnEmpty, he429, heEmpty]

/-- Witness for `rate_limit_retry_once` at concrete error messages,
including a rate-limited retry failure and the empty-content
rejection text itself. -/
theorem rate_limit_retry_once_witness :
    errIncludes429 "429 Too Many Requests" = true ∧
    errIncludes429 "socket hang up" = false ∧
    strIncludes "socket hang up" emptyContentMarker = false ∧
    errIncludes429 emptyContentMarker = false ∧
    strIncludes emptyContentMarker emptyContentMarker = true ∧
    loopSend (.fail "429 Too Many Requests") (.fail "429 again") =
      .thrown "429 again" 60000 ∧
    loopSend (.fail emptyContentMarker) (.ok ⟨"", []⟩) =
      .breakEmptyContent emptyContentMarker :=
  ⟨by decide, by decide, by decide, by decide, by decide,
   (rate_limit_retry_once "429 Too Many Requests" "socket hang up" emptyContentMarker
     "429 again" ⟨"", []⟩ (.ok ⟨"", []⟩) (by decide) (by decide) (by decide)
     (by decide) (by decide)).2.2.2.1,
   (rate_limit_retry_once "429 Too Many Requests" "socket hang up" emptyContentMarker
     "429 again" ⟨"", []⟩ (.ok ⟨"", []⟩) (by decide) (by decide) (by decide)
     (by decide) (by decide)).2.2.2.2.2.2.2⟩

/-! ## Dispatching one batch of tool calls

src/unnamed/part_000 lines 171-245: the for-loop over
`response.functionCalls()`, building `functionResponses`, with the
early return on `task_completed` and the post-loop validation pass. -/

/-- One element pushed onto `functionResponses`: the object
`functionResponse: (name, response: (error?, output))`. -/
structure FunctionResponse where
  name : String
  error : Option String
  output : String
deriving DecidableEq

/-- Empty-output normalization (lines 204-208):
`toolResult && toolResult.trim().length > 0 ? toolResult : "Operation completed successfully"`. -/
def normalizeOutput (s : String) : String :=
  if 0 < (jsTrim s).data.length then s else "Operation completed successfully"

/-- The response synthesized when the lookup fails (lines 188-199). -/
def notFoundResponse (c : ToolCall) : FunctionResponse :=
  ⟨c.name, some ("Tool " ++ c.name ++ " not found"), "Tool not available"⟩

/-- The response built when a handler invocation throws (lines 217-228). -/
def handlerErrorResponse (c : ToolCall) (msg : String) : FunctionResponse :=
  ⟨c.name, some msg, "Tool execution failed"⟩

/-- Outcome of one handler invocation: the returned text, or a thrown
error's message. -/
inductive HandlerResult where
  | ok (out : String)
  | err (msg : String)
deriving DecidableEq

/-- Outcome of the dispatch for-loop: either the early `return` taken on
a `task_completed` call (recording whether the lookup succeeded and the
handler actually ran), or the accumulated function responses. -/
inductive BatchOutcome where
  | completed (handlerInvoked : Bool)
  | responses (rs : List FunctionResponse)
deriving DecidableEq

/-- The for-loop over the batch (lines 174-229).  `hrun` is the oracle
giving each handler invocation's outcome; it is consulted only when the
lookup succeeds. -/
def dispatchCalls (hrun : ToolCall → HandlerResult) :
    List ToolCall → List FunctionResponse → BatchOutcome
  | [], acc => .responses acc
  | call :: rest, acc =>
    if call.name = "task_completed" then
      .completed (findTool call.name).isSome
    else
      match findTool call.name with
      | none => dispatchCalls hrun rest (acc ++ [notFoundResponse call])
      | some _ =>
        match hrun call with
        | .ok out =>
          dispatchCalls hrun rest (acc ++ [⟨call.name, none, normalizeOutput out⟩])
        | .err m => dispatchCalls hrun rest (acc ++ [handlerErrorResponse call m])

/-- The post-loop validation pass (lines 238-245): a blank output is
overwritten with "Success". -/
def validateResponse (r : FunctionResponse) : FunctionResponse :=
  if (jsTrim r.output).data.length = 0 then { r with output := "Success" } else r

/-- C1: the loop's lookup compares `tool.name` (undefined on every
registry entry) with the call's name, so even a call whose name matches
a registered `definition.name` is answered with the synthesized
"not found" error response and its handler is never invoked. -/
theorem registered_tool_lookup_always_misses (hrun : ToolCall → HandlerResult) :
    (toolDefinitions.map (fun t => t.definition.name)).contains "think" = true ∧
    findTool "think" = none ∧
    dispatchCalls hrun [⟨"think", "plan the task"⟩] [] =
      .responses [⟨"think", some "Tool think not found", "Tool not available"⟩] := by
  exact ⟨by decide, rfl, rfl⟩

/-- C2: a batch containing `task_completed` makes the loop return
immediately, discarding the calls after it — but the guarded handler
invocation is skipped (the lookup misses), so the completion comment and
issue close the handler would perform never happen. -/
theorem terminal_call_skips_handler (hrun : ToolCall → HandlerResult) :
    dispatchCalls hrun [⟨"task_completed", "done"⟩, ⟨"think", "after"⟩] [] =
      .completed false ∧
    Effect.closeTheIssue ∈ (taskCompletedHandler "done").1 := by
  exact ⟨rfl, by decide⟩

lemma normalizeOutput_nonblank (s : String) :
    0 < (jsTrim (normalizeOutput s)).data.length := by
  unfold normalizeOutput
  split
  · assumption
  · decide

lemma validateResponse_nonblank (r : FunctionResponse) :
    0 < (jsTrim (validateResponse r).output).data.length := by
  unfold validateResponse
  split
  · show 0 < (jsTrim "Success").data.length
    decide
  · omega

lemma validateResponse_name (r : FunctionResponse) :
    (validateResponse r).name = r.name := by
  unfold validateResponse
  split <;> rfl

lemma dispatchCalls_outputs_nonblank (hrun : ToolCall → HandlerResult) :
    ∀ calls acc rs, (∀ r ∈ acc, 0 < (jsTrim r.output).data.length) →
      dispatchCalls hrun calls acc = .responses rs →
      ∀ r ∈ rs, 0 < (jsTrim r.output).data.length := by
  intro calls
  induction calls with
  | nil =>
    intro acc rs hacc heq
    cases heq
    exact hacc
  | cons c rest ih =>
    intro acc rs hacc heq
    by_cases hname : c.name = "task_completed"
    · rw [dispatchCalls, if_pos hname] at heq
      cases heq
    · rw [dispatchCalls, if_neg hname, findTool_eq_none] at heq
      refine ih _ _ ?_ heq
      intro r hr
      rcases List.mem_append.mp hr with h | h
      · exact hacc r h
      · rcases List.mem_singleton.mp h with rfl
        show 0 < (jsTrim "Tool not available").data.length
        decide

/-- C8: a handler output that is empty or whitespace-only is recorded as
the non-empty placeholder, and every response in a dispatched batch —
before and after the validation pass — has non-blank output, so the turn
sent back to the model is never empty. -/
theorem empty_output_normalized (s : String) (hs : (jsTrim s).data.length = 0)
    (hrun : ToolCall → HandlerResult) (calls : List ToolCall)
    (rs : List FunctionResponse) (hd : dispatchCalls hrun calls [] = .responses rs) :
    normalizeOutput s = "Operation completed successfully" ∧
    (∀ r ∈ rs, 0 < (jsTrim r.output).data.length) ∧
    (∀ r ∈ rs.map validateResponse, 0 < (jsTrim r.output).data.length) := by
  refine ⟨?_, ?_, ?_⟩
  · unfold normalizeOutput
    rw [if_neg (by omega)]
  · exact dispatchCalls_outputs_nonblank hrun calls [] rs (by intro r hr; cases hr) hd
  · intro r hr
    rcases List.mem_map.mp hr with ⟨r0, _, rfl⟩
    exact validateResponse_nonblank r0

/-- A stub handler oracle used by concrete witnesses. -/
def stubHandler : ToolCall → HandlerResult := fun _ => .ok ""

/-- Witness for `empty_output_normalized`: a whitespace-only handler
output and a concrete one-call batch. -/
theorem empty_output_normalized_witness :
    (jsTrim "   ").data.length = 0 ∧
    dispatchCalls stubHandler [⟨"think", "x"⟩] [] =
      .responses [⟨"think", some "Tool think not found", "Tool not available"⟩] ∧
    normalizeOutput "   " = "Operation completed successfully" :=
  ⟨by decide, rfl,
   (empty_output_normalized "   " (by decide) stubHandler [⟨"think", "x"⟩]
     [⟨"think", some "Tool think not found", "Tool not available"⟩] rfl).1⟩

/-- C10: in the four-tool variant, `write_file` returns the empty string
both on success and on failure, so after normalization the model sees
the identical placeholder and cannot distinguish the two. -/
theorem write_file_variant_result_indistinct (path m : String) :
    (writeFileHandlerV2 path .ok).2 = "" ∧
    (writeFileHandlerV2 path (.error m)).2 = "" ∧
    normalizeOutput (writeFileHandlerV2 path .ok).2 =
      normalizeOutput (writeFileHandlerV2 path (.error m)).2 ∧
    normalizeOutput (writeFileHandlerV2 path .ok).2 =
      "Operation completed successfully" :=
  ⟨rfl, rfl, rfl, rfl⟩

/-! ## The agent loop

src/unnamed/part_000 lines 49-51 and 99-277: the bounded while loop.
The embedding follows the success path of the sends (their failure
handling is `initialSend`/`loopSend` above): the model is an oracle
mapping the index of a successful send to the model turn it returns, and
the wall clock is an oracle giving the elapsed milliseconds observed at
the top of each while iteration.  The fixed pacing delays
(`RATE_LIMIT_DELAY`) do not influence any branch and are elided. -/

def MAX_ITERATIONS : Nat := 50
def TIMEOUT_MS : Nat := 300000
def RATE_LIMIT_DELAY : Nat := 2000

/-- The hard-coded corrective re-prompt of the forced-retry branch
(lines 139-147), verbatim. -/
def forceMessage : String :=
  "You are a coding assistant that MUST use tools to complete tasks. \n\nTask: Create a nice simple landing page for FormAssembly in HTML (index.html) and Tailwind CSS.\n\nIMPORTANT: You MUST start by using the \"think\" tool to plan your approach. Do not provide any text response - only use the available tools.\n\nAvailable tools: think, list_files, read_file, write_file, update_file, delete_file, task_completed\n\nStart now by using the \"think\" tool."

/-- The default task substituted when the fetched issue text is empty or
whitespace-only (lines 79-82). -/
def defaultTask : String :=
  "Task: Create a simple HTML landing page with Tailwind CSS. Use the available tools to complete this task."

/-- A payload passed to `chat.sendMessage`: either a user text message
or a batch of function responses. -/
inductive Payload where
  | userText (s : String)
  | functionResponses (rs : List FunctionResponse)
deriving DecidableEq

/-- What one executed while-iteration did: the iteration counter after
the increment, the function calls of the model turn it inspected, and
the payload it sent before the next iteration (`none` when the run ended
in this iteration). -/
structure IterRecord where
  iteration : Nat
  calls : List ToolCall
  sent : Option Payload
deriving DecidableEq

/-- How the run ended. -/
inductive RunStatus where
  | taskCompleted (handlerInvoked : Bool)
  | noMoreCalls
  | emptyResponses
  | timeout
  | maxIterations
deriving DecidableEq

/-- The forced-retry branch's observable data: the message it sent and
the history the fresh chat session was started with (line 135-137:
`model.startChat(history: the empty list)`). -/
structure RetryInfo where
  message : String
  freshHistory : List Payload
deriving DecidableEq

/-- The observable outcome of a run. -/
structure RunResult where
  status : RunStatus
  sends : List Payload
  trace : List IterRecord
  retry : Option RetryInfo
  maxIterLogged : Bool
deriving DecidableEq

/-- The while loop (lines 102-272) plus the post-loop check (lines
274-276).  `fuel` is the number of iterations the guard
`iterations < MAX_ITERATIONS` still allows, so `fuel + iterations =
MAX_ITERATIONS` at every call.  `k` is the index the next successful
send will have in the model oracle; `result` is the turn returned by the
previous send. -/
def loopBody (hrun : ToolCall → HandlerResult) (oracle : Nat → ModelTurn)
    (elapsed : Nat → Nat) :
    Nat → Nat → Nat → ModelTurn → List IterRecord → List Payload →
    Option RetryInfo → RunResult
  | 0, iterations, _, _, trace, sends, retry =>
    ⟨.maxIterations, sends, trace, retry, decide (MAX_ITERATIONS ≤ iterations)⟩
  | fuel + 1, iterations, k, result, trace, sends, retry =>
    if TIMEOUT_MS < elapsed iterations then
      ⟨.timeout, sends, trace, retry, decide (MAX_ITERATIONS ≤ iterations)⟩
    else if result.functionCalls = [] then
      if iterations + 1 = 1 then
        loopBody hrun oracle elapsed fuel (iterations + 1) (k + 1) (oracle k)
          (trace ++ [⟨iterations + 1, result.functionCalls, some (.userText forceMessage)⟩])
          (sends ++ [.userText forceMessage]) (some ⟨forceMessage, []⟩)
      else
        ⟨.noMoreCalls, sends, trace ++ [⟨iterations + 1, result.functionCalls, none⟩],
          retry, decide (MAX_ITERATIONS ≤ iterations + 1)⟩
    else
      match dispatchCalls hrun result.functionCalls [] with
      | .completed inv =>
        ⟨.taskCompleted inv, sends, trace ++ [⟨iterations + 1, result.functionCalls, none⟩],
          retry, false⟩
      | .responses rs =>
        if rs = [] then
          ⟨.emptyResponses, sends, trace ++ [⟨iterations + 1, result.functionCalls, none⟩],
            retry, decide (MAX_ITERATIONS ≤ iterations + 1)⟩
        else
          loopBody hrun oracle elapsed fuel (iterations + 1) (k + 1) (oracle k)
            (trace ++ [⟨iterations + 1, result.functionCalls,
              some (.functionResponses (rs.map validateResponse))⟩])
            (sends ++ [.functionResponses (rs.map validateResponse)]) retry

/-- One whole run of `loop()` on the success path of the sends: the
empty-task substitution (lines 79-82), the initial send (line 88), then
the while loop with the full iteration budget. -/
def runAgent (task : String) (hrun : ToolCall → HandlerResult)
    (oracle : Nat → ModelTurn) (elapsed : Nat → Nat) : RunResult :=
  loopBody hrun oracle elapsed MAX_ITERATIONS 0 1 (oracle 0) []
    [.userText (if (jsTrim task).data.length = 0 then defaultTask else task)] none

lemma dispatchCalls_names (hrun : ToolCall → HandlerResult) :
    ∀ calls acc rs, dispatchCalls hrun calls acc = .responses rs →
      rs.map (fun r => r.name) =
        acc.map (fun r => r.name) ++ calls.map (fun c => c.name) := by
  intro calls
  induction calls with
  | nil =>
    intro acc rs heq
    cases heq
    simp
  | cons c rest ih =>
    intro acc rs heq
    by_cases hname : c.name = "task_completed"
    · rw [dispatchCalls, if_pos hname] at heq
      cases heq
    · rw [dispatchCalls, if_neg hname, findTool_eq_none] at heq
      have h := ih _ _ heq
      simp only [List.map_append, List.map_cons, List.map_nil] at h ⊢
      rw [h, List.append_assoc]
      simp [notFoundResponse]

lemma dispatchCalls_no_terminal (hrun : ToolCall → HandlerResult) :
    ∀ calls acc, (∀ c ∈ calls, c.name ≠ "task_completed") →
      dispatchCalls hrun calls acc = .responses (acc ++ calls.map notFoundResponse) := by
  intro calls
  induction calls with
  | nil => intro acc _; simp [dispatchCalls]
  | cons c rest ih =>
    intro acc h
    have hc : c.name ≠ "task_completed" := h c (List.mem_cons_self c rest)
    rw [dispatchCalls, if_neg hc, findTool_eq_none,
      ih _ (fun d hd => h d (List.mem_cons_of_mem c hd))]
    simp

lemma loopBody_extends (hrun : ToolCall → HandlerResult) (oracle : Nat → ModelTurn)
    (elapsed : Nat → Nat) :
    ∀ fuel iterations k result trace sends retry,
      (∃ t, (loopBody hrun oracle elapsed fuel iterations k result trace sends retry).trace
        = trace ++ t) ∧
      (∃ u, (loopBody hrun oracle elapsed fuel iterations k result trace sends retry).sends
        = sends ++ u) := by
  intro fuel
  induction fuel with
  | zero =>
    intro iterations k result trace sends retry
    exact ⟨⟨[], by simp [loopBody]⟩, ⟨[], by simp [loopBody]⟩⟩
  | succ fuel ih =>
    intro iterations k result trace sends retry
    simp only [loopBody]
    by_cases ht : TIMEOUT_MS < elapsed iterations
    · rw [if_pos ht]
      exact ⟨⟨[], by simp⟩, ⟨[], by simp⟩⟩
    · rw [if_neg ht]
      by_cases hc : result.functionCalls = []
      · rw [if_pos hc]
        by_cases h1 : iterations + 1 = 1
        · rw [if_pos h1]
          obtain ⟨⟨t, h₁⟩, ⟨u, h₂⟩⟩ := ih (iterations + 1) (k + 1) (oracle k)
            (trace ++ [⟨iterations + 1, result.functionCalls, some (.userText forceMessage)⟩])
            (sends ++ [.userText forceMessage]) (some ⟨forceMessage, []⟩)
          exact ⟨⟨[⟨iterations + 1, result.functionCalls, some (.userText forceMessage)⟩] ++ t,
              by rw [h₁, List.append_assoc]⟩,
            ⟨[.userText forceMessage] ++ u, by rw [h₂, List.append_assoc]⟩⟩
        · rw [if_neg h1]
          exact ⟨⟨[⟨iterations + 1, result.functionCalls, none⟩], rfl⟩, ⟨[], by simp⟩⟩
      · rw [if_neg hc]
        split
        · exact ⟨⟨[⟨iterations + 1, result.functionCalls, none⟩], rfl⟩, ⟨[], by simp⟩⟩
        · rename_i rs heq
          split
          · exact ⟨⟨[⟨iterations + 1, result.functionCalls, none⟩], rfl⟩, ⟨[], by simp⟩⟩
          · obtain ⟨⟨t, h₁⟩, ⟨u, h₂⟩⟩ := ih (iterations + 1) (k + 1) (oracle k)
              (trace ++ [⟨iterations + 1, result.functionCalls,
                some (.functionResponses (rs.map validateResponse))⟩])
              (sends ++ [.functionResponses (rs.map validateResponse)]) retry
            exact ⟨⟨[⟨iterations + 1, result.functionCalls,
                some (.functionResponses (rs.map validateResponse))⟩] ++ t,
                by rw [h₁, List.append_assoc]⟩,
              ⟨[.functionResponses (rs.map validateResponse)] ++ u,
                by rw [h₂, List.append_assoc]⟩⟩

/-- An iteration record answers its model turn: a function-response
payload sent in the iteration answers exactly the calls of the turn, one
response per call with matching names in order, and a text payload is
only ever sent when the turn had no calls. -/
def GoodRec (rec : IterRecord) : Prop :=
  (∀ rs, rec.sent = some (.functionResponses rs) →
    rs.map (fun r => r.name) = rec.calls.map (fun c => c.name)) ∧
  (∀ s, rec.sent = some (.userText s) → rec.calls = [])

lemma map_name_validateResponse (l : List FunctionResponse) :
    (l.map validateResponse).map (fun r => r.name) = l.map (fun r => r.name) := by
  induction l with
  | nil => rfl
  | cons a l ihl => simp [ihl, validateResponse_name]

lemma loopBody_good (hrun : ToolCall → HandlerResult) (oracle : Nat → ModelTurn)
    (elapsed : Nat → Nat) :
    ∀ fuel iterations k result trace sends retry,
      (∀ rec ∈ trace, GoodRec rec) →
      ∀ rec ∈ (loopBody hrun oracle elapsed fuel iterations k result trace sends retry).trace,
        GoodRec rec := by
  intro fuel
  induction fuel with
  | zero =>
    intro iterations k result trace sends retry hacc
    simpa [loopBody] using hacc
  | succ fuel ih =>
    intro iterations k result trace sends retry hacc
    simp only [loopBody]
    by_cases ht : TIMEOUT_MS < elapsed iterations
    · rw [if_pos ht]; exact hacc
    · rw [if_neg ht]
      by_cases hc : result.functionCalls = []
      · rw [if_pos hc]
        by_cases h1 : iterations + 1 = 1
        · rw [if_pos h1]
          refine ih _ _ _ _ _ _ ?_
          intro rec hrec
          rcases List.mem_append.mp hrec with h | h
          · exact hacc rec h
          · rcases List.mem_singleton.mp h with rfl
            exact ⟨fun rs hrs => by simp at hrs, fun s _ => hc⟩
        · rw [if_neg h1]
          intro rec hrec
          rcases List.mem_append.mp hrec with h | h
          · exact hacc rec h
          · rcases List.mem_singleton.mp h with rfl
            exact ⟨fun rs hrs => by simp at hrs, fun s hs => by simp at hs⟩
      · rw [if_neg hc]
        split
        · intro rec hrec
          rcases List.mem_append.mp hrec with h | h
          · exact hacc rec h
          · rcases List.mem_singleton.mp h with rfl
            exact ⟨fun rs hrs => by simp at hrs, fun s hs => by simp at hs⟩
        · rename_i rs heq
          split
          · intro rec hrec
            rcases List.mem_append.mp hrec with h | h
            · exact hacc rec h
            · rcases List.mem_singleton.mp h with rfl
              exact ⟨fun rs' hrs' => by simp at hrs', fun s hs => by simp at hs⟩
          · refine ih _ _ _ _ _ _ ?_
            intro rec hrec
            rcases List.mem_append.mp hrec with h | h
            · exact hacc rec h
            · rcases List.mem_singleton.mp h with rfl
              constructor
              · intro rs' hrs'
                have hrs2 : rs.map validateResponse = rs' := by
                  have := Option.some.inj hrs'
                  exact Payload.functionResponses.inj this
                subst hrs2
                have hnames := dispatchCalls_names hrun result.functionCalls [] rs heq
                simp only [List.map_nil, List.nil_append] at hnames
                exact (map_name_validateResponse rs).trans hnames
              · intro s hs
                simp at hs

lemma loopBody_sends_tail (hrun : ToolCall → HandlerResult) (oracle : Nat → ModelTurn)
    (elapsed : Nat → Nat) :
    ∀ fuel iterations k result trace sends retry, 1 ≤ iterations →
      ∃ u, (loopBody hrun oracle elapsed fuel iterations k result trace sends retry).sends
          = sends ++ u ∧ ∀ p ∈ u, ∃ rs, p = Payload.functionResponses rs := by
  intro fuel
  induction fuel with
  | zero =>
    intro iterations k result trace sends retry _
    exact ⟨[], by simp [loopBody], by simp⟩
  | succ fuel ih =>
    intro iterations k result trace sends retry hiter
    simp only [loopBody]
    by_cases ht : TIMEOUT_MS < elapsed iterations
    · rw [if_pos ht]; exact ⟨[], by simp, by simp⟩
    · rw [if_neg ht]
      by_cases hc : result.functionCalls = []
      · rw [if_pos hc, if_neg (by omega)]
        exact ⟨[], by simp, by simp⟩
      · rw [if_neg hc]
        split
        · exact ⟨[], by simp, by simp⟩
        · rename_i rs heq
          split
          · exact ⟨[], by simp, by simp⟩
          · obtain ⟨u, hu, hall⟩ := ih (iterations + 1) (k + 1) (oracle k)
              (trace ++ [⟨iterations + 1, result.functionCalls,
                some (.functionResponses (rs.map validateResponse))⟩])
              (sends ++ [.functionResponses (rs.map validateResponse)]) retry (by omega)
            refine ⟨[Payload.functionResponses (rs.map validateResponse)] ++ u,
              by rw [hu, List.append_assoc], ?_⟩
            intro p hp
            rcases List.mem_append.mp hp with h | h
            · rcases List.mem_singleton.mp h with rfl
              exact ⟨rs.map validateResponse, rfl⟩
            · exact hall p h

lemma loopBody_retry_preserved (hrun : ToolCall → HandlerResult) (oracle : Nat → ModelTurn)
    (elapsed : Nat → Nat) :
    ∀ fuel iterations k result trace sends info, 1 ≤ iterations →
      (loopBody hrun oracle elapsed fuel iterations k result trace sends (some info)).retry
        = some info := by
  intro fuel
  induction fuel with
  | zero =>
    intro iterations k result trace sends info _
    simp [loopBody]
  | succ fuel ih =>
    intro iterations k result trace sends info hiter
    simp only [loopBody]
    by_cases ht : TIMEOUT_MS < elapsed iterations
    · rw [if_pos ht]
    · rw [if_neg ht]
      by_cases hc : result.functionCalls = []
      · rw [if_pos hc, if_neg (by omega)]
      · rw [if_neg hc]
        split
        · rfl
        · rename_i rs heq
          split
          · rfl
          · exact ih (iterations + 1) (k + 1) (oracle k) _ _ info (by omega)

lemma loopBody_retry_step (hrun : ToolCall → HandlerResult) (oracle : Nat → ModelTurn)
    (elapsed : Nat → Nat) (fuel k : Nat) (result : ModelTurn)
    (trace : List IterRecord) (sends : List Payload) (retry : Option RetryInfo)
    (hclk : elapsed 0 ≤ TIMEOUT_MS) (hres : result.functionCalls = []) :
    loopBody hrun oracle elapsed (fuel + 1) 0 k result trace sends retry =
      loopBody hrun oracle elapsed fuel 1 (k + 1) (oracle k)
        (trace ++ [⟨1, result.functionCalls, some (.userText forceMessage)⟩])
        (sends ++ [.userText forceMessage]) (some ⟨forceMessage, []⟩) := by
  simp only [loopBody]
  rw [if_neg (by omega), if_pos hres]
  norm_num

lemma getLast?_append_singleton {α : Type} (l : List α) (a : α) :
    (l ++ [a]).getLast? = some a := by
  rw [List.getLast?_append_cons]
  rfl

lemma loopBody_late_empty_terminates (hrun : ToolCall → HandlerResult)
    (oracle : Nat → ModelTurn) (elapsed : Nat → Nat) :
    ∀ fuel iterations k result trace sends retry,
      (∀ r ∈ trace, r.calls = [] → r.iteration ≤ 1) →
      ∀ rec ∈ (loopBody hrun oracle elapsed fuel iterations k result trace sends retry).trace,
        2 ≤ rec.iteration → rec.calls = [] →
        (loopBody hrun oracle elapsed fuel iterations k result trace sends retry).status
            = RunStatus.noMoreCalls ∧
        (loopBody hrun oracle elapsed fuel iterations k result trace sends retry).trace.getLast?
            = some rec ∧
        rec.sent = none := by
  intro fuel
  induction fuel with
  | zero =>
    intro iterations k result trace sends retry hacc rec hrec h2 hnil
    have : rec.iteration ≤ 1 := hacc rec (by simpa [loopBody] using hrec) hnil
    omega
  | succ fuel ih =>
    intro iterations k result trace sends retry hacc
    simp only [loopBody]
    by_cases ht : TIMEOUT_MS < elapsed iterations
    · rw [if_pos ht]
      intro rec hrec h2 hnil
      have : rec.iteration ≤ 1 := hacc rec hrec hnil
      omega
    · rw [if_neg ht]
      by_cases hc : result.functionCalls = []
      · rw [if_pos hc]
        by_cases h1 : iterations + 1 = 1
        · rw [if_pos h1]
          refine ih _ _ _ _ _ _ ?_
          intro r hr hrnil
          rcases List.mem_append.mp hr with h | h
          · exact hacc r h hrnil
          · rcases List.mem_singleton.mp h with rfl
            show iterations + 1 ≤ 1
            omega
        · rw [if_neg h1]
          intro rec hrec h2 hnil
          rcases List.mem_append.mp hrec with h | h
          · have : rec.iteration ≤ 1 := hacc rec h hnil
            omega
          · rcases List.mem_singleton.mp h with rfl
            exact ⟨rfl, getLast?_append_singleton trace _, rfl⟩
      · rw [if_neg hc]
        split
        · intro rec hrec h2 hnil
          rcases List.mem_append.mp hrec with h | h
          · have : rec.iteration ≤ 1 := hacc rec h hnil
            omega
          · rcases List.mem_singleton.mp h with rfl
            exact absurd hnil hc
        · rename_i rs heq
          split
          · intro rec hrec h2 hnil
            rcases List.mem_append.mp hrec with h | h
            · have : rec.iteration ≤ 1 := hacc rec h hnil
              omega
            · rcases List.mem_singleton.mp h with rfl
              exact absurd hnil hc
          · refine ih _ _ _ _ _ _ ?_
            intro r hr hrnil
            rcases List.mem_append.mp hr with h | h
            · exact hacc r h hrnil
            · rcases List.mem_singleton.mp h with rfl
              exact absurd hrnil hc

lemma loopBody_max (hrun : ToolCall → HandlerResult) (oracle : Nat → ModelTurn)
    (elapsed : Nat → Nat)
    (hmodel : ∀ j, (oracle j).functionCalls ≠ [] ∧
      ∀ c ∈ (oracle j).functionCalls, c.name ≠ "task_completed")
    (hclock : ∀ i, elapsed i ≤ TIMEOUT_MS) :
    ∀ fuel iterations k result trace sends retry,
      result.functionCalls ≠ [] →
      (∀ c ∈ result.functionCalls, c.name ≠ "task_completed") →
      (loopBody hrun oracle elapsed fuel iterations k result trace sends retry).status
          = RunStatus.maxIterations ∧
      (loopBody hrun oracle elapsed fuel iterations k result trace sends retry).trace.length
          = trace.length + fuel ∧
      (loopBody hrun oracle elapsed fuel iterations k result trace sends retry).sends.length
          = sends.length + fuel ∧
      (MAX_ITERATIONS ≤ iterations + fuel →
        (loopBody hrun oracle elapsed fuel iterations k result trace sends retry).maxIterLogged
          = true) := by
  intro fuel
  induction fuel with
  | zero =>
    intro iterations k result trace sends retry _ _
    refine ⟨rfl, by simp [loopBody], by simp [loopBody], ?_⟩
    intro h
    simp only [loopBody]
    simpa using h
  | succ fuel ih =>
    intro iterations k result trace sends retry hres hterm
    simp only [loopBody]
    rw [if_neg (by have := hclock iterations; omega), if_neg hres]
    have hdisp := dispatchCalls_no_terminal hrun result.functionCalls [] hterm
    split
    · rename_i inv heq
      rw [hdisp] at heq
      cases heq
    · rename_i rs heq
      rw [hdisp] at heq
      have hrs : rs = result.functionCalls.map notFoundResponse :=
        (BatchOutcome.responses.inj heq).symm
      have hrsne : rs ≠ [] := by
        rw [hrs]
        simpa using hres
      rw [if_neg hrsne]
      obtain ⟨h1, h2, h3, h4⟩ := ih (iterations + 1) (k + 1) (oracle k)
        (trace ++ [⟨iterations + 1, result.functionCalls,
          some (.functionResponses (rs.map validateResponse))⟩])
        (sends ++ [.functionResponses (rs.map validateResponse)]) retry
        (hmodel k).1 (hmodel k).2
      refine ⟨h1, ?_, ?_, ?_⟩
      · rw [h2]; simp; omega
      · rw [h3]; simp; omega
      · intro h
        exact h4 (by omega)

/-- A model oracle whose every turn requests one non-terminal tool call;
used by witnesses. -/
def alwaysThinkOracle : Nat → ModelTurn := fun _ => ⟨"", [⟨"think", "t"⟩]⟩

/-- A model oracle that never requests tool calls; used by witnesses. -/
def proseOracle : Nat → ModelTurn := fun _ => ⟨"prose answer", []⟩

/-- A model oracle requesting one think call on its first turn and
nothing afterwards; used by witnesses. -/
def oneCallOracle : Nat → ModelTurn :=
  fun k => if k = 0 then ⟨"", [⟨"think", "x"⟩]⟩ else ⟨"done", []⟩

/-- A clock oracle observing no elapsed time; used by witnesses. -/
def zeroClock : Nat → Nat := fun _ => 0

/-- C3: in every run, a function-response payload sent to the model
answers exactly the tool calls of the model turn of its iteration —
one response per call, names matching in order — and a user-text payload
is only ever sent on a turn with no calls, so no model call is issued
with a dangling unanswered tool call. -/
theorem no_dangling_tool_calls (task : String) (hrun : ToolCall → HandlerResult)
    (oracle : Nat → ModelTurn) (elapsed : Nat → Nat) :
    ∀ rec ∈ (runAgent task hrun oracle elapsed).trace,
      (∀ rs, rec.sent = some (.functionResponses rs) →
        rs.map (fun r => r.name) = rec.calls.map (fun c => c.name)) ∧
      (∀ s, rec.sent = some (.userText s) → rec.calls = []) := by
  intro rec hrec
  exact loopBody_good hrun oracle elapsed MAX_ITERATIONS 0 1 (oracle 0) []
    [.userText (if (jsTrim task).data.length = 0 then defaultTask else task)] none
    (by intro r hr; cases hr) rec hrec

/-- The first iteration record of the witness run for
`no_dangling_tool_calls`. -/
def c3Record : IterRecord :=
  ⟨1, [⟨"think", "x"⟩],
    some (.functionResponses [⟨"think", some "Tool think not found", "Tool not available"⟩])⟩

/-- Witness for `no_dangling_tool_calls` on a concrete two-turn run. -/
theorem no_dangling_tool_calls_witness :
    c3Record ∈ (runAgent "demo task" stubHandler oneCallOracle zeroClock).trace ∧
    ([⟨"think", some "Tool think not found", "Tool not available"⟩] :
        List FunctionResponse).map (fun r => r.name)
      = c3Record.calls.map (fun c => c.name) :=
  ⟨by decide,
   (no_dangling_tool_calls "demo task" stubHandler oneCallOracle zeroClock
     c3Record (by decide)).1 _ rfl⟩

/-- C4: a first model turn with zero tool calls does not end the run —
the loop sends the single corrective re-prompt and resumes — while a
zero-call turn on any later iteration terminates the run with the silent
no-more-calls status. -/
theorem first_turn_forced_retry (task : String) (hrun : ToolCall → HandlerResult)
    (oracle : Nat → ModelTurn) (elapsed : Nat → Nat)
    (hclk : elapsed 0 ≤ TIMEOUT_MS) :
    ((oracle 0).functionCalls = [] →
      (runAgent task hrun oracle elapsed).sends.get? 1 = some (.userText forceMessage) ∧
      (runAgent task hrun oracle elapsed).trace.get? 0 =
        some ⟨1, [], some (.userText forceMessage)⟩) ∧
    (∀ rec ∈ (runAgent task hrun oracle elapsed).trace, 2 ≤ rec.iteration →
      rec.calls = [] →
      (runAgent task hrun oracle elapsed).status = RunStatus.noMoreCalls ∧
      (runAgent task hrun oracle elapsed).trace.getLast? = some rec ∧
      rec.sent = none) := by
  constructor
  · intro h0
    have hagent : runAgent task hrun oracle elapsed =
        loopBody hrun oracle elapsed 49 1 2 (oracle 1)
          ([] ++ [⟨1, (oracle 0).functionCalls, some (.userText forceMessage)⟩])
          ([.userText (if (jsTrim task).data.length = 0 then defaultTask else task)]
            ++ [.userText forceMessage]) (some ⟨forceMessage, []⟩) :=
      loopBody_retry_step hrun oracle elapsed 49 1 (oracle 0) []
        [.userText (if (jsTrim task).data.length = 0 then defaultTask else task)]
        none hclk h0
    obtain ⟨⟨t, htr⟩, ⟨u, hse⟩⟩ := loopBody_extends hrun oracle elapsed 49 1 2 (oracle 1)
      ([] ++ [⟨1, (oracle 0).functionCalls, some (.userText forceMessage)⟩])
      ([.userText (if (jsTrim task).data.length = 0 then defaultTask else task)]
        ++ [.userText forceMessage]) (some ⟨forceMessage, []⟩)
    constructor
    · rw [hagent, hse]
      rfl
    · rw [hagent, htr, h0]
      rfl
  · intro rec hrec h2 hnil
    exact loopBody_late_empty_terminates hrun oracle elapsed MAX_ITERATIONS 0 1 (oracle 0)
      [] [.userText (if (jsTrim task).data.length = 0 then defaultTask else task)] none
      (by intro r hr; cases hr) rec hrec h2 hnil

/-- Witness for `first_turn_forced_retry` on a run whose model never
requests tools: the re-prompt goes out after the first turn and the
second zero-call turn ends the run. -/
theorem first_turn_forced_retry_witness :
    zeroClock 0 ≤ TIMEOUT_MS ∧
    (proseOracle 0).functionCalls = [] ∧
    (runAgent "demo" stubHandler proseOracle zeroClock).sends.get? 1 =
      some (.userText forceMessage) ∧
    (⟨2, [], none⟩ : IterRecord) ∈ (runAgent "demo" stubHandler proseOracle zeroClock).trace ∧
    (runAgent "demo" stubHandler proseOracle zeroClock).status = RunStatus.noMoreCalls :=
  ⟨Nat.zero_le _, rfl,
   ((first_turn_forced_retry "demo" stubHandler proseOracle zeroClock (Nat.zero_le _)).1 rfl).1,
   by decide,
   ((first_turn_forced_retry "demo" stubHandler proseOracle zeroClock (Nat.zero_le _)).2
     ⟨2, [], none⟩ (by decide) (by decide) rfl).1⟩

/-- C6: against a model that always returns a non-terminal tool call
(and within the wall-clock budget), the run ends with the dedicated
max-iterations status after exactly `MAX_ITERATIONS` iterations, having
issued `MAX_ITERATIONS + 1` sends (the initial send plus one per
iteration, the last being the one in-flight send whose response is never
processed). -/
theorem max_iterations_bound (task : String) (hrun : ToolCall → HandlerResult)
    (oracle : Nat → ModelTurn) (elapsed : Nat → Nat)
    (hmodel : ∀ j, (oracle j).functionCalls ≠ [] ∧
      ∀ c ∈ (oracle j).functionCalls, c.name ≠ "task_completed")
    (hclock : ∀ i, elapsed i ≤ TIMEOUT_MS) :
    (runAgent task hrun oracle elapsed).status = RunStatus.maxIterations ∧
    (runAgent task hrun oracle elapsed).maxIterLogged = true ∧
    (runAgent task hrun oracle elapsed).trace.length = MAX_ITERATIONS ∧
    (runAgent task hrun oracle elapsed).sends.length = MAX_ITERATIONS + 1 := by
  obtain ⟨h1, h2, h3, h4⟩ := loopBody_max hrun oracle elapsed hmodel hclock
    MAX_ITERATIONS 0 1 (oracle 0) []
    [.userText (if (jsTrim task).data.length = 0 then defaultTask else task)] none
    (hmodel 0).1 (hmodel 0).2
  exact ⟨h1, h4 (by omega), h2.trans (by simp),
    h3.trans (by simp only [List.length_cons, List.length_nil]; omega)⟩

lemma alwaysThinkOracle_nonterminal (j : Nat) :
    (alwaysThinkOracle j).functionCalls ≠ [] ∧
    ∀ c ∈ (alwaysThinkOracle j).functionCalls, c.name ≠ "task_completed" := by
  constructor
  · show ([⟨"think", "t"⟩] : List ToolCall) ≠ []
    decide
  · show ∀ c ∈ ([⟨"think", "t"⟩] : List ToolCall), c.name ≠ "task_completed"
    decide

/-- Witness for `max_iterations_bound` with a stubbed always-think
model and a zero clock. -/
theorem max_iterations_bound_witness :
    (alwaysThinkOracle 0).functionCalls ≠ [] ∧
    (∀ c ∈ (alwaysThinkOracle 0).functionCalls, c.name ≠ "task_completed") ∧
    (runAgent "demo" stubHandler alwaysThinkOracle zeroClock).status =
      RunStatus.maxIterations ∧
    (runAgent "demo" stubHandler alwaysThinkOracle zeroClock).trace.length =
      MAX_ITERATIONS ∧
    (runAgent "demo" stubHandler alwaysThinkOracle zeroClock).sends.length =
      MAX_ITERATIONS + 1 :=
  ⟨by decide, by decide,
   (max_iterations_bound "demo" stubHandler alwaysThinkOracle zeroClock
     alwaysThinkOracle_nonterminal (fun i => Nat.zero_le _)).1,
   (max_iterations_bound "demo" stubHandler alwaysThinkOracle zeroClock
     alwaysThinkOracle_nonterminal (fun i => Nat.zero_le _)).2.2.1,
   (max_iterations_bound "demo" stubHandler alwaysThinkOracle zeroClock
     alwaysThinkOracle_nonterminal (fun i => Nat.zero_le _)).2.2.2⟩

set_option maxRecDepth 8000 in
/-- C9: when the forced-retry branch fires, the re-prompt sent is the
fixed hard-coded `forceMessage` with its built-in landing-page task —
independent of the run's task text — on a fresh chat started with empty
history, and every subsequent send is a function-response batch, so the
original issue text is never sent again. -/
theorem forced_retry_discards_task (task : String) (hrun : ToolCall → HandlerResult)
    (oracle : Nat → ModelTurn) (elapsed : Nat → Nat)
    (h0 : (oracle 0).functionCalls = [])
    (hclk : elapsed 0 ≤ TIMEOUT_MS) :
    (runAgent task hrun oracle elapsed).retry = some ⟨forceMessage, []⟩ ∧
    (runAgent task hrun oracle elapsed).sends.get? 0 =
      some (.userText (if (jsTrim task).data.length = 0 then defaultTask else task)) ∧
    (runAgent task hrun oracle elapsed).sends.get? 1 = some (.userText forceMessage) ∧
    (∀ p ∈ (runAgent task hrun oracle elapsed).sends.drop 2,
      ∃ rs, p = Payload.functionResponses rs) ∧
    strIncludes forceMessage "landing page for FormAssembly" = true := by
  have hagent : runAgent task hrun oracle elapsed =
      loopBody hrun oracle elapsed 49 1 2 (oracle 1)
        ([] ++ [⟨1, (oracle 0).functionCalls, some (.userText forceMessage)⟩])
        ([.userText (if (jsTrim task).data.length = 0 then defaultTask else task)]
          ++ [.userText forceMessage]) (some ⟨forceMessage, []⟩) :=
    loopBody_retry_step hrun oracle elapsed 49 1 (oracle 0) []
      [.userText (if (jsTrim task).data.length = 0 then defaultTask else task)]
      none hclk h0
  obtain ⟨u, hu, hall⟩ := loopBody_sends_tail hrun oracle elapsed 49 1 2 (oracle 1)
    ([] ++ [⟨1, (oracle 0).functionCalls, some (.userText forceMessage)⟩])
    ([.userText (if (jsTrim task).data.length = 0 then defaultTask else task)]
      ++ [.userText forceMessage]) (some ⟨forceMessage, []⟩) (by omega)
  refine ⟨?_, ?_, ?_, ?_, ?_⟩
  · rw [hagent]
    exact loopBody_retry_preserved hrun oracle elapsed 49 1 2 (oracle 1) _ _ _ (by omega)
  · rw [hagent, hu]
    rfl
  · rw [hagent, hu]
    rfl
  · rw [hagent, hu]
    intro p hp
    exact hall p hp
  · decide

/-- Witness for `forced_retry_discards_task` on a run whose model never
requests tools. -/
theorem forced_retry_discards_task_witness :
    (proseOracle 0).functionCalls = [] ∧
    zeroClock 0 ≤ TIMEOUT_MS ∧
    (runAgent "demo" stubHandler proseOracle zeroClock).retry = some ⟨forceMessage, []⟩ ∧
    (runAgent "demo" stubHandler proseOracle zeroClock).sends.get? 1 =
      some (.userText forceMessage) :=
  ⟨rfl, Nat.zero_le _,
   (forced_retry_discards_task "demo" stubHandler proseOracle zeroClock rfl
     (Nat.zero_le _)).1,
   (forced_retry_discards_task "demo" stubHandler proseOracle zeroClock rfl
     (Nat.zero_le _)).2.2.1⟩

end AgentLoop
